import Mathlib

/-!
Verification development for the web-scraper-toolkit repository.

The Python sources are shallowly embedded: the extraction engine
(`RequestsEngine._extract_data` / `RequestsEngine.scrape`), the retry
unit (`RequestsEngine._fetch_page` with its tenacity decorator), the
orchestration layer (`Scraper.scrape` / `Scraper.scrape_multiple` /
`Scraper.__init__`), the robots.txt gate (`RobotsTxtChecker.can_fetch`),
the proxy rotation (`get_proxy`), the CSV exporter (`CSVExporter.export`)
and the configuration dataclass (`ScraperConfig`).  External
collaborators (HTTP transport, CSS selection, robots retrieval,
randomness) are passed in as explicit function parameters.
-/

namespace WST

/-- Python values occurring in extraction records: `None`, strings, and
lists of values. -/
inductive Value : Type
  | null : Value
  | str : String → Value
  | vlist : List Value → Value
  deriving Repr

mutual

/-- Decidable equality for `Value` (the nested `List Value` makes the
automatic derivation unavailable, so it is spelled out). -/
def Value.beq : Value → Value → Bool
  | Value.null, Value.null => true
  | Value.str s, Value.str t => s == t
  | Value.vlist xs, Value.vlist ys => Value.beqList xs ys
  | _, _ => false

/-- Pointwise `Value.beq` on lists. -/
def Value.beqList : List Value → List Value → Bool
  | [], [] => true
  | x :: xs, y :: ys => Value.beq x y && Value.beqList xs ys
  | _, _ => false

end

mutual

theorem Value.beq_eq : ∀ {v w : Value}, Value.beq v w = true → v = w
  | Value.null, Value.null, _ => rfl
  | Value.str s, Value.str t, h => by
      simp only [Value.beq, beq_iff_eq] at h
      simp [h]
  | Value.vlist xs, Value.vlist ys, h => by
      simp only [Value.beq] at h
      have : xs = ys := Value.beqList_eq h
      simp [this]
  | Value.null, Value.str _, h => by simp [Value.beq] at h
  | Value.null, Value.vlist _, h => by simp [Value.beq] at h
  | Value.str _, Value.null, h => by simp [Value.beq] at h
  | Value.str _, Value.vlist _, h => by simp [Value.beq] at h
  | Value.vlist _, Value.null, h => by simp [Value.beq] at h
  | Value.vlist _, Value.str _, h => by simp [Value.beq] at h

theorem Value.beqList_eq : ∀ {xs ys : List Value}, Value.beqList xs ys = true → xs = ys
  | [], [], _ => rfl
  | x :: xs, y :: ys, h => by
      simp only [Value.beqList, Bool.and_eq_true] at h
      have h1 : x = y := Value.beq_eq h.1
      have h2 : xs = ys := Value.beqList_eq h.2
      simp [h1, h2]
  | [], _ :: _, h => by simp [Value.beqList] at h
  | _ :: _, [], h => by simp [Value.beqList] at h

end

mutual

theorem Value.beq_refl : ∀ (v : Value), Value.beq v v = true
  | Value.null => rfl
  | Value.str s => by simp [Value.beq]
  | Value.vlist xs => by
      simp only [Value.beq]
      exact Value.beqList_refl xs

theorem Value.beqList_refl : ∀ (xs : List Value), Value.beqList xs xs = true
  | [] => rfl
  | x :: xs => by
      simp only [Value.beqList, Bool.and_eq_true]
      exact ⟨Value.beq_refl x, Value.beqList_refl xs⟩

end

instance : DecidableEq Value := fun v w =>
  if h : Value.beq v w = true then
    Decidable.isTrue (Value.beq_eq h)
  else
    Decidable.isFalse (fun he => h (he ▸ Value.beq_refl v))

/-- A parsed HTML element: its text segments (the navigable strings below
it, in document order) and its attributes. -/
structure Node where
  texts : List String
  attrs : List (String × String)
  deriving Repr, DecidableEq

/-- A parsed document, abstracted as the external selector collaborator:
`doc sel` is the list of nodes matched by the CSS selector `sel`
(`soup.select(selector)` in the source). -/
abbrev Doc : Type := String → List Node

/-- Python `str.strip()`: drop whitespace characters from both ends of
the string, leaving interior characters untouched. -/
def strTrim (s : String) : String :=
  ⟨((s.data.dropWhile Char.isWhitespace).reverse.dropWhile Char.isWhitespace).reverse⟩

/-- Model of BeautifulSoup `get_text(strip=True)`: every text segment is
stripped of surrounding whitespace, empty segments are dropped, and the
stripped segments are concatenated. -/
def getTextStrip (n : Node) : String :=
  String.join ((n.texts.map strTrim).filter (fun s => s ≠ ""))

/-- Model of `element.get(attribute)`: the attribute value, or `none`
when the attribute is absent. -/
def Node.getAttr (n : Node) (a : String) : Option String :=
  n.attrs.lookup a

/-- A schema processor: a Python callable applied to a string value; it
returns a new value (possibly `None`) or raises (`Except.error`). -/
abbrev Processor : Type := String → Except Unit (Option String)

/-- The per-element processor loop of `_extract_data`
(`for processor in processors: if value is not None: value = processor(value)`).
A `none` value skips every remaining processor; a raised fault is
propagated. -/
def applyProcessors : List Processor → Option String → Except Unit (Option String)
  | [], v => Except.ok v
  | _ :: rest, none => applyProcessors rest none
  | p :: rest, some s =>
      match p s with
      | Except.error u => Except.error u
      | Except.ok v => applyProcessors rest v

/-- A structured field specification: the `selector` / `attribute` /
`multiple` / `processors` entries of a mapping-shaped FieldSpec, with
the same defaults as `field_schema.get` in the source. -/
structure StructuredSpec where
  selector : Option String := none
  attr : Option String := none
  multiple : Bool := false
  processors : List Processor := []

/-- One field specification: a plain selector string, a mapping, or any
other value (which the engine skips silently). -/
inductive FieldSpec : Type
  | plain : String → FieldSpec
  | mapping : StructuredSpec → FieldSpec
  | other : FieldSpec

/-- A schema: field names with their specifications, in insertion order. -/
abbrev Schema : Type := List (String × FieldSpec)

/-- A record: field names with extracted values, in insertion order. -/
abbrev Record : Type := List (String × Value)

/-- Plain-selector extraction (the `isinstance(field_schema, str)` branch
of `_extract_data`): no match yields `None`, one match yields the node
text, several matches yield the list of texts. -/
def extractPlain (doc : Doc) (selector : String) : Value :=
  match doc selector with
  | [] => Value.null
  | [e] => Value.str (getTextStrip e)
  | es => Value.vlist (es.map (fun e => Value.str (getTextStrip e)))

/-- The raw per-node value before processors: the named attribute when
the `attribute` entry is set, otherwise the stripped text. -/
def nodeRawValue (attrName : Option String) (e : Node) : Option String :=
  match attrName with
  | some a => e.getAttr a
  | none => some (getTextStrip e)

/-- Lift an optional string to a record value. -/
def optValue : Option String → Value
  | none => Value.null
  | some s => Value.str s

/-- The element loop of the structured branch: raw value then processors
for each matched node, in order; a processor fault aborts the loop
(there is no try/except around the processors in the source). -/
def extractElems (sp : StructuredSpec) : List Node → Except Unit (List (Option String))
  | [] => Except.ok []
  | e :: rest =>
      match applyProcessors sp.processors (nodeRawValue sp.attr e) with
      | Except.error u => Except.error u
      | Except.ok v =>
          match extractElems sp rest with
          | Except.error u => Except.error u
          | Except.ok vs => Except.ok (v :: vs)

/-- Collapse the per-element values (`extracted_data`) to the field value:
the full list when `multiple`, otherwise the first element. -/
def collapseValues (multiple : Bool) (vals : List (Option String)) : Value :=
  if multiple then Value.vlist (vals.map optValue)
  else
    match vals with
    | [] => Value.null
    | v :: _ => optValue v

/-- The mapping branch of `_extract_data`: `Except.ok none` means the
field is skipped (`continue` after the missing-selector warning),
`Except.ok (some v)` stores `v`, `Except.error` is a raised processor
fault escaping the method. -/
def extractStructured (doc : Doc) (sp : StructuredSpec) : Except Unit (Option Value) :=
  match sp.selector with
  | none => Except.ok none
  | some sel =>
      if sel = "" then Except.ok none
      else
        match doc sel with
        | [] => Except.ok (some (if sp.multiple then Value.vlist [] else Value.null))
        | e :: es =>
            match extractElems sp (e :: es) with
            | Except.error u => Except.error u
            | Except.ok vals => Except.ok (some (collapseValues sp.multiple vals))

/-- `RequestsEngine._extract_data`: fold over the schema building the
record; a raised processor fault propagates out, discarding the fields
already extracted (the partially built dict is lost). -/
def extractData (doc : Doc) : Schema → Except Unit Record
  | [] => Except.ok []
  | (name, fs) :: rest =>
      match fs with
      | FieldSpec.plain sel =>
          match extractData doc rest with
          | Except.error u => Except.error u
          | Except.ok r => Except.ok ((name, extractPlain doc sel) :: r)
      | FieldSpec.mapping sp =>
          match extractStructured doc sp with
          | Except.error u => Except.error u
          | Except.ok none => extractData doc rest
          | Except.ok (some v) =>
              match extractData doc rest with
              | Except.error u => Except.error u
              | Except.ok r => Except.ok ((name, v) :: r)
      | FieldSpec.other => extractData doc rest

/-- `RequestsEngine.scrape`: the fetched and parsed page is passed in as
`fetched` (`Except.error` covers a fetch that failed after its retries);
any exception, including a processor fault escaping `_extract_data`, is
caught by the catch-all and yields the empty record. -/
def engineScrape (fetched : Except Unit Doc) (schema : Schema) : Record :=
  match fetched with
  | Except.error _ => []
  | Except.ok doc =>
      match extractData doc schema with
      | Except.error _ => []
      | Except.ok r => r

/-- The attempt budget hard-coded in the decorator of
`RequestsEngine._fetch_page`: `stop_after_attempt(3)`. -/
def tenacityMaxAttempts : Nat := 3

/-- The constant inter-attempt wait hard-coded in the same decorator:
`wait_fixed(2)` seconds. -/
def tenacityWaitSeconds : Nat := 2

deriving instance DecidableEq for Except

/-- Outcome of a retried fetch: the final result, how many transport
calls were made, and the waits (in seconds) slept between attempts. -/
structure RetryOutcome where
  result : Except String String
  attempts : Nat
  waits : List Nat
  deriving Repr, DecidableEq

/-- The tenacity retry loop: `transport i` is the i-th attempt
(`Except.ok` carries `response.text`, `Except.error` a transport failure
or a `raise_for_status` error).  With budget `b`, up to `b` attempts are
made, waiting `waitTime` between attempts; the final failure carries the
last attempt`s cause. -/
def retryRun (transport : Nat → Except String String) (waitTime : Nat) :
    Nat → Nat → RetryOutcome
  | _, 0 => ⟨Except.error "", 0, []⟩
  | i, 1 => ⟨transport i, 1, []⟩
  | i, Nat.succ (Nat.succ b) =>
      match transport i with
      | Except.ok body => ⟨Except.ok body, 1, []⟩
      | Except.error _ =>
          let rest := retryRun transport waitTime (i + 1) (Nat.succ b)
          ⟨rest.result, rest.attempts + 1, waitTime :: rest.waits⟩

/-- `ScraperConfig` (the `config.py` dataclass) with its field defaults.
`request_delay` (a float, 2.0 seconds) is held in milliseconds. -/
structure ScraperConfig where
  engine : String := "requests"
  browser : String := "chrome"
  headless : Bool := true
  user_agent : String := "Mozilla/5.0 (Windows NT 10.0; Win64; x64) AppleWebKit/537.36 (KHTML, like Gecko) Chrome/91.0.4472.124 Safari/537.36"
  user_agent_rotation : Bool := false
  user_agent_list_path : String := "./config/user_agents.txt"
  use_proxies : Bool := false
  proxy_rotation_policy : String := "round-robin"
  proxy_list_path : String := "./config/proxies.txt"
  respect_robots_txt : Bool := true
  request_delay_ms : Nat := 2000
  max_requests_per_minute : Nat := 30
  max_retries : Nat := 3
  timeout : Nat := 30
  verify_ssl : Bool := true
  cookies : List (String × String) := []
  headers : List (String × String) := []
  solve_captchas : Bool := false
  captcha_service : String := "2captcha"
  captcha_api_key : String := ""
  log_level : String := "INFO"
  data_dir : String := "./data"
  deriving Repr, DecidableEq

/-- `RequestsEngine._fetch_page` as wrapped by its decorator.  The
decorator names the literal `3`, not `cfg.max_retries`, so the
configuration does not influence the attempt budget. -/
def fetchPage (cfg : ScraperConfig) (transport : Nat → Except String String) :
    RetryOutcome :=
  retryRun transport tenacityWaitSeconds 0 tenacityMaxAttempts

/-- The configuration handling in `Scraper.__init__`
(`if engine and engine != self.config.engine: self.config.engine = engine`):
the stored configuration after construction, given the `engine` argument
and the configuration passed in. -/
def scraperInit (engineArg : String) (cfg : ScraperConfig) : ScraperConfig :=
  if engineArg ≠ "" ∧ engineArg ≠ cfg.engine then
    { cfg with engine := engineArg }
  else cfg

/-- `Scraper.scrape`: the robots gate (when a checker is installed) can
short-circuit to the empty record; otherwise the engine result is
returned (the engine already catches its own exceptions). -/
def scraperScrape (respectRobots : Bool) (robotsAllow : String → Bool)
    (engineResult : String → Record) (url : String) : Record :=
  if respectRobots && !(robotsAllow url) then [] else engineResult url

/-- `result["url"] = url` on a Python dict: overwrite an existing
`"url"` key in place, otherwise append it at the end. -/
def withUrl (r : Record) (url : String) : Record :=
  if (r.lookup "url").isSome then
    r.map (fun kv => if kv.1 = "url" then ("url", Value.str url) else kv)
  else r ++ [("url", Value.str url)]

/-- `Scraper.scrape_multiple`: each URL is scraped in order; a falsy
(empty) record is dropped, a truthy one gets the originating URL added
and is appended to the results. -/
def scrapeMultiple (scrapeOne : String → Record) : List String → List Record
  | [] => []
  | u :: rest =>
      let r := scrapeOne u
      if r = [] then scrapeMultiple scrapeOne rest
      else withUrl r u :: scrapeMultiple scrapeOne rest

/-- Rules of a parsed robots.txt for the configured user agent, as
`urllib.robotparser` holds them: rule lines `(allowance, path)` in file
order; the first applicable line decides, the default is allow. -/
structure RobotsRules where
  rules : List (Bool × String)
  deriving Repr, DecidableEq

/-- `RuleLine.applies_to`: the rule path `"*"` applies to every path,
otherwise the rule path must start the path.  (The character-list
comparison models Python `startswith`.) -/
def pathApplies (rulePath path : String) : Bool :=
  rulePath == "*" || rulePath.data.isPrefixOf path.data

/-- Verdict of the parser for a path: the first applicable rule line
decides; with no applicable line the path is allowed. -/
def RobotsRules.allows (p : RobotsRules) (path : String) : Bool :=
  match p.rules.find? (fun r => pathApplies r.2 path) with
  | none => true
  | some r => r.1

/-- `RobotsTxtChecker.can_fetch` for a URL split as origin plus path.
`fetchRobots` abstracts `_get_robots_parser`: `Except.ok none` is a
robots.txt that could not be read (the method returns `None`),
`Except.error` is any other exception while checking; both fall open to
allow.  An empty path is replaced by `"/"` as in the source. -/
def canFetchUrl (fetchRobots : String → Except Unit (Option RobotsRules))
    (origin path : String) : Bool :=
  let p := if path = "" then "/" else path
  match fetchRobots origin with
  | Except.error _ => true
  | Except.ok none => true
  | Except.ok (some rules) => rules.allows p

/-- `get_proxy` of `proxy_manager.py` with the process-wide state made
explicit: `pool` is the loaded proxy cache, `cursor` the shared
round-robin index, `randPick` the draw used by `random.choice` (as an
arbitrary natural, reduced modulo the pool size).  Returns the selected
proxy and the new cursor. -/
def get_proxy (pool : List String) (policy : String) (cursor : Nat)
    (randPick : Nat) : Option String × Nat :=
  if pool.isEmpty then (none, cursor)
  else if policy = "random" then (pool.get? (randPick % pool.length), cursor)
  else if policy = "round-robin" then
    (pool.get? cursor, (cursor + 1) % pool.length)
  else (pool.get? (randPick % pool.length), cursor)

/-- `n` consecutive round-robin calls of `get_proxy`, threading the
shared cursor; returns the selections in order and the final cursor. -/
def iterateRoundRobin (pool : List String) : Nat → Nat → List (Option String) × Nat
  | cursor, 0 => ([], cursor)
  | cursor, Nat.succ n =>
      ((get_proxy pool "round-robin" cursor 0).1 ::
          (iterateRoundRobin pool (get_proxy pool "round-robin" cursor 0).2 n).1,
        (iterateRoundRobin pool (get_proxy pool "round-robin" cursor 0).2 n).2)

/-- Keys of a record, in insertion order. -/
def recordKeys (r : Record) : List String := r.map Prod.fst

/-- The fieldname loop of `CSVExporter.export`: append each key not yet
present, in order. -/
def addNewKeys (fieldnames : List String) : List String → List String
  | [] => fieldnames
  | k :: rest =>
      if k ∈ fieldnames then addNewKeys fieldnames rest
      else addNewKeys (fieldnames ++ [k]) rest

/-- CSV header derivation of `CSVExporter.export`: the first record`s
keys, then every later record`s unseen keys appended in order. -/
def csvFieldnames : List Record → List String
  | [] => []
  | first :: rest =>
      rest.foldl (fun fns item => addNewKeys fns (recordKeys item)) (recordKeys first)

/-- The union of keys across records in first-seen order, stated as the
specification words it (starting from an empty column set). -/
def specFirstSeenUnion (data : List Record) : List String :=
  data.foldl (fun acc item => addNewKeys acc (recordKeys item)) []

/-- A single-quote character, for Python string representations. -/
def quoteChar : String := String.singleton (Char.ofNat 39)

mutual

/-- Python `str(value)` for record values (`str()` of a list shows its
elements` reprs separated by comma-space). -/
def pyRepr : Value → String
  | Value.null => "None"
  | Value.str s => quoteChar ++ s ++ quoteChar
  | Value.vlist xs => "[" ++ pyReprList xs ++ "]"

/-- Comma-separated Python reprs of a list of values. -/
def pyReprList : List Value → String
  | [] => ""
  | [x] => pyRepr x
  | x :: xs => pyRepr x ++ ", " ++ pyReprList xs

end

/-- One CSV cell: lists (non-scalar values) are serialized via `str`,
strings pass through, `None` is rendered as the empty column by the csv
writer. -/
def csvCell : Value → String
  | Value.null => ""
  | Value.str s => s
  | Value.vlist xs => pyRepr (Value.vlist xs)

/-- One CSV data row as `csv.DictWriter.writerow` produces it: a cell
per fieldname, the empty string (`restval`) for keys the record lacks. -/
def csvRow (fieldnames : List String) (item : Record) : List String :=
  fieldnames.map (fun k =>
    match item.lookup k with
    | none => ""
    | some v => csvCell v)

/-- `CSVExporter.export` on a non-empty record list, abstracted from file
I/O: the header row and the data rows it writes. -/
def csvExport (data : List Record) : List String × List (List String) :=
  let fns := csvFieldnames data
  (fns, data.map (csvRow fns))

/-! Concrete fixtures used by counterexamples and witnesses. -/

/-- A processor that raises on every input. -/
def faultProc : Processor := fun _ => Except.error ()

/-- A document with one `h1` node containing `Hi` and one `p` node
containing `x`. -/
def c1Doc : Doc := fun sel =>
  if sel = "h1" then [⟨["Hi"], []⟩]
  else if sel = "p" then [⟨["x"], []⟩]
  else []

/-- A structured spec whose only processor always raises. -/
def c1Spec : StructuredSpec := { selector := some "p", processors := [faultProc] }

/-- A schema with a healthy plain field and a field whose processor
raises. -/
def c1Schema : Schema :=
  [("title", FieldSpec.plain "h1"), ("bad", FieldSpec.mapping c1Spec)]

/-- A transport that fails on every attempt, with a distinct cause per
attempt. -/
def alwaysFailTransport : Nat → Except String String :=
  fun i => Except.error (toString i)

/-- A configuration asking for a single retry. -/
def retriesOneConfig : ScraperConfig := { max_retries := 1 }

/-- A node whose single text segment has leading, trailing and internal
whitespace. -/
def wideNode : Node := ⟨["  a  b  "], []⟩

/-- A document with exactly one `p` node, `wideNode`. -/
def c3Doc : Doc := fun sel => if sel = "p" then [wideNode] else []

/-- A configuration constructed with the selenium engine. -/
def seleniumConfig : ScraperConfig := { engine := "selenium" }

/-- The scenario document: one `h1` containing `Hi` and two anchors with
`href` attributes `/a` and `/b`. -/
def scnDoc : Doc := fun sel =>
  if sel = "h1" then [⟨["Hi"], []⟩]
  else if sel = "a" then [⟨[], [("href", "/a")]⟩, ⟨[], [("href", "/b")]⟩]
  else []

/-- The scenario schema: plain `title` field and a structured multiple
`links` field over the `href` attribute. -/
def scnSchema : Schema :=
  [("title", FieldSpec.plain "h1"),
   ("links", FieldSpec.mapping { selector := some "a", attr := some "href", multiple := true })]

/-- Robots rules disallowing the path prefix `/private`. -/
def privateRules : RobotsRules := ⟨[(false, "/private")]⟩

/-- A robots retrieval returning the `/private`-disallowing rules for
every origin. -/
def privateRobots : String → Except Unit (Option RobotsRules) :=
  fun _ => Except.ok (some privateRules)

/-- A robots retrieval whose robots.txt cannot be read. -/
def unreachableRobots : String → Except Unit (Option RobotsRules) :=
  fun _ => Except.ok none

/-- A robots retrieval raising while checking. -/
def faultyRobots : String → Except Unit (Option RobotsRules) :=
  fun _ => Except.error ()

/-- A per-URL scrape where the second of three URLs always fails. -/
def c6Engine : String → Record :=
  fun u => if u = "http://two" then [] else [("title", Value.str u)]

/-- The three URLs of the multi-URL scenario. -/
def threeUrls : List String := ["http://one", "http://two", "http://three"]

/-! Helper lemmas. -/

/-- A raised fault in the extraction of any later field makes the whole
of `_extract_data` raise: the fields already extracted are lost. -/
theorem extractData_append_error (doc : Doc) (pre : Schema) {rest : Schema}
    (h : extractData doc rest = Except.error ()) :
    extractData doc (pre ++ rest) = Except.error () := by
  induction pre with
  | nil => simpa using h
  | cons f pre ih =>
      obtain ⟨name, fs⟩ := f
      cases fs with
      | plain sel => simp [extractData, ih]
      | mapping sp =>
          rcases h2 : extractStructured doc sp with u | ov
          · simp [extractData, h2]
          · cases ov with
            | none => simpa [extractData, h2] using ih
            | some v => simp [extractData, h2, ih]
      | other => simpa [extractData] using ih

/-! Claim theorems. -/

/-- C1 counterexample: on a document where the schema has a healthy
plain field `title` and a structured field `bad` whose processor raises,
the claim predicts a record containing `title`; the code returns the
empty record, with no `title` entry at all. -/
theorem C1_counterexample :
    engineScrape (Except.ok c1Doc) c1Schema = [] ∧
    (engineScrape (Except.ok c1Doc) c1Schema).lookup "title" = none := by
  constructor
  · rfl
  · rfl

/-- C1 (amended): a processor fault while processing a matched element is
not caught per element; it escapes `_extract_data`, so the whole
extraction raises and `RequestsEngine.scrape`'s catch-all returns the
empty record — every other field of the schema is lost. -/
theorem C1_processor_fault_aborts
    (doc : Doc) (pre post : Schema) (name sel : String) (sp : StructuredSpec)
    (hsel : sp.selector = some sel) (hne : sel ≠ "")
    (e : Node) (es : List Node) (hdoc : doc sel = e :: es)
    (hf : extractElems sp (e :: es) = Except.error ()) :
    extractData doc (pre ++ (name, FieldSpec.mapping sp) :: post) = Except.error () ∧
    engineScrape (Except.ok doc) (pre ++ (name, FieldSpec.mapping sp) :: post) = [] := by
  have hs : extractStructured doc sp = Except.error () := by
    rw [extractStructured, hsel]
    simp only [hne, if_false, hdoc, hf]
  have hx : extractData doc ((name, FieldSpec.mapping sp) :: post) = Except.error () := by
    simp [extractData, hs]
  have hall := extractData_append_error doc pre hx
  exact ⟨hall, by simp [engineScrape, hall]⟩

/-- C1 witness: the amended theorem applied to the concrete document and
schema of the counterexample. -/
theorem C1_witness :
    extractData c1Doc ([("title", FieldSpec.plain "h1")] ++ ("bad", FieldSpec.mapping c1Spec) :: []) = Except.error () ∧
    engineScrape (Except.ok c1Doc) ([("title", FieldSpec.plain "h1")] ++ ("bad", FieldSpec.mapping c1Spec) :: []) = [] :=
  C1_processor_fault_aborts c1Doc [("title", FieldSpec.plain "h1")] [] "bad" "p"
    c1Spec rfl (by decide) ⟨["x"], []⟩ [] rfl rfl

/-- C2 counterexample: with `max_retries = 1` and a transport that always
fails, the fetch still makes 3 attempts (the decorator hard-codes
`stop_after_attempt(3)`), not the 1 attempt the claim predicts; the
final failure carries the last attempt's cause. -/
theorem C2_counterexample :
    retriesOneConfig.max_retries = 1 ∧
    (fetchPage retriesOneConfig alwaysFailTransport).attempts = 3 ∧
    (fetchPage retriesOneConfig alwaysFailTransport).result = Except.error "2" := by
  refine ⟨rfl, rfl, rfl⟩

/-- C2 (amended): for every configuration, the fetch makes exactly 3
attempts (the decorator's hard-coded budget, ignoring `max_retries`),
waiting the constant 2 seconds between attempts; an always-failing
transport yields the last attempt's cause, and a transport failing twice
then succeeding yields the success body. -/
theorem C2_retry_three_attempts (cfg : ScraperConfig)
    (transport : Nat → Except String String) :
    (∀ e0 e1 e2, transport 0 = Except.error e0 → transport 1 = Except.error e1 →
        transport 2 = Except.error e2 →
        fetchPage cfg transport =
          ⟨Except.error e2, 3, [tenacityWaitSeconds, tenacityWaitSeconds]⟩) ∧
    (∀ e0 e1 body, transport 0 = Except.error e0 → transport 1 = Except.error e1 →
        transport 2 = Except.ok body →
        fetchPage cfg transport =
          ⟨Except.ok body, 3, [tenacityWaitSeconds, tenacityWaitSeconds]⟩) := by
  constructor
  · intro e0 e1 e2 h0 h1 h2
    simp [fetchPage, tenacityMaxAttempts, retryRun, h0, h1, h2]
  · intro e0 e1 body h0 h1 h2
    simp [fetchPage, tenacityMaxAttempts, retryRun, h0, h1, h2]

/-- C2 witness: the amended theorem applied to the always-failing
transport and to a transport succeeding on its third attempt. -/
theorem C2_witness :
    fetchPage retriesOneConfig alwaysFailTransport =
      ⟨Except.error "2", 3, [tenacityWaitSeconds, tenacityWaitSeconds]⟩ ∧
    fetchPage retriesOneConfig (fun i => if i < 2 then Except.error (toString i) else Except.ok "body") =
      ⟨Except.ok "body", 3, [tenacityWaitSeconds, tenacityWaitSeconds]⟩ :=
  ⟨(C2_retry_three_attempts retriesOneConfig alwaysFailTransport).1 "0" "1" "2" rfl rfl rfl,
   (C2_retry_three_attempts retriesOneConfig
      (fun i => if i < 2 then Except.error (toString i) else Except.ok "body")).2
     "0" "1" "body" rfl rfl rfl⟩

/-- C3 counterexample: a matched node whose text is `  a  b  ` (internal
run of two spaces) is extracted as `a  b`: surrounding whitespace is
trimmed, but the internal run is preserved, not collapsed to one space
as the claim states. -/
theorem C3_counterexample :
    extractPlain c3Doc "p" = Value.str "a  b" ∧
    extractPlain c3Doc "p" ≠ Value.str "a b" := by
  constructor
  · rfl
  · decide

/-- C3 (amended): for a plain-selector field, zero matches yield null,
one match yields that node's text as a scalar, several matches yield the
list of texts; each text segment is trimmed of surrounding whitespace
(internal whitespace is left as is). -/
theorem C3_plain_field (doc : Doc) (sel : String) :
    (doc sel = [] → extractPlain doc sel = Value.null) ∧
    (∀ e, doc sel = [e] → extractPlain doc sel = Value.str (getTextStrip e)) ∧
    (∀ e1 e2 es, doc sel = e1 :: e2 :: es →
        extractPlain doc sel =
          Value.vlist ((e1 :: e2 :: es).map (fun e => Value.str (getTextStrip e)))) ∧
    (∀ t attrList, getTextStrip ⟨[t], attrList⟩ = strTrim t) := by
  refine ⟨?_, ?_, ?_, ?_⟩
  · intro h; simp [extractPlain, h]
  · intro e h; simp [extractPlain, h]
  · intro e1 e2 es h; simp [extractPlain, h]
  · intro t attrList
    by_cases h : strTrim t = ""
    · simp [getTextStrip, h, String.join]
    · simp only [getTextStrip, List.map, List.filter, h, decide_not]
      simp [h, String.join]

/-- C3 witness: the amended theorem applied to the one-node document of
the counterexample. -/
theorem C3_witness :
    extractPlain c3Doc "p" = Value.str (getTextStrip wideNode) ∧
    getTextStrip ⟨["  a  b  "], []⟩ = strTrim "  a  b  " :=
  ⟨(C3_plain_field c3Doc "p").2.1 wideNode rfl,
   (C3_plain_field c3Doc "p").2.2.2 "  a  b  " []⟩

/-- Round-robin selection on a non-empty pool reads the cursor entry and
advances the shared cursor modulo the pool size. -/
theorem get_proxy_rr (pool : List String) (c r : Nat) (h : pool ≠ []) :
    get_proxy pool "round-robin" c r = (pool.get? c, (c + 1) % pool.length) := by
  have h0 : pool.isEmpty = false := by simp [List.isEmpty_iff, h]
  have h1 : ¬ (("round-robin" : String) = "random") := by decide
  simp [get_proxy, h0, h1]

/-- As long as the cursor does not wrap, consecutive round-robin
selections walk the pool from the cursor onward. -/
theorem iterateRR_no_wrap (pool : List String) :
    ∀ (n c : Nat), c < pool.length → c + n ≤ pool.length →
      (iterateRoundRobin pool c n).1 = ((pool.drop c).take n).map some ∧
      (iterateRoundRobin pool c n).2 = (c + n) % pool.length
  | 0, c, hc, _ => by
      simp [iterateRoundRobin, Nat.mod_eq_of_lt hc]
  | Nat.succ n, c, hc, hn => by
      have hne : pool ≠ [] := by
        intro h
        rw [h] at hc
        simp at hc
      have hget : pool.get? c = some (pool.get ⟨c, hc⟩) := List.get?_eq_get hc
      rw [iterateRoundRobin, get_proxy_rr pool c 0 hne]
      by_cases hcs : c + 1 < pool.length
      · have hmod : (c + 1) % pool.length = c + 1 := Nat.mod_eq_of_lt hcs
        have hrec := iterateRR_no_wrap pool n (c + 1) hcs (by omega)
        rw [hmod]
        constructor
        · show pool.get? c :: (iterateRoundRobin pool (c + 1) n).1 = _
          rw [hrec.1, hget, List.drop_eq_getElem_cons hc]
          simp only [List.take_succ_cons, List.map_cons]
          rfl
        · show (iterateRoundRobin pool (c + 1) n).2 = (c + (n + 1)) % pool.length
          rw [hrec.2]
          congr 1
          omega
      · have hn0 : n = 0 := by omega
        have hc1 : c + 1 = pool.length := by omega
        subst hn0
        constructor
        · show pool.get? c :: (iterateRoundRobin pool ((c + 1) % pool.length) 0).1 = _
          rw [iterateRoundRobin, hget, List.drop_eq_getElem_cons hc]
          have hdn : pool.drop (c + 1) = [] := List.drop_eq_nil_of_le (by omega)
          simp [hdn]
        · show (iterateRoundRobin pool ((c + 1) % pool.length) 0).2 = (c + (0 + 1)) % pool.length
          rw [iterateRoundRobin]

/-- Splitting a run of round-robin selections: the first `m` selections
then the remaining `n` from the reached cursor. -/
theorem iterateRR_add (pool : List String) (m n : Nat) :
    ∀ c, (iterateRoundRobin pool c (m + n)).1 =
        (iterateRoundRobin pool c m).1 ++
          (iterateRoundRobin pool (iterateRoundRobin pool c m).2 n).1 ∧
      (iterateRoundRobin pool c (m + n)).2 =
        (iterateRoundRobin pool (iterateRoundRobin pool c m).2 n).2 := by
  induction m with
  | zero => intro c; simp [iterateRoundRobin]
  | succ m ih =>
      intro c
      have hs : m + 1 + n = (m + n) + 1 := by omega
      rw [hs]
      obtain ⟨ih1, ih2⟩ := ih ((get_proxy pool "round-robin" c 0).2)
      constructor
      · show (get_proxy pool "round-robin" c 0).1 ::
            (iterateRoundRobin pool (get_proxy pool "round-robin" c 0).2 (m + n)).1 = _
        rw [ih1]
        simp [iterateRoundRobin]
      · show (iterateRoundRobin pool (get_proxy pool "round-robin" c 0).2 (m + n)).2 = _
        rw [ih2]
        simp [iterateRoundRobin]

/-- A full cycle of round-robin selections from any cursor position
returns the rotation of the pool and restores the cursor. -/
theorem iterateRR_full (pool : List String) (c : Nat) (hc : c < pool.length) :
    (iterateRoundRobin pool c pool.length).1 = (pool.rotate c).map some ∧
    (iterateRoundRobin pool c pool.length).2 = c := by
  have hpos : 0 < pool.length := by omega
  have hlen : pool.length = (pool.length - c) + c := by omega
  obtain ⟨hadd1, hadd2⟩ := iterateRR_add pool (pool.length - c) c c
  have h1 := iterateRR_no_wrap pool (pool.length - c) c hc (by omega)
  have hcur0 : (iterateRoundRobin pool c (pool.length - c)).2 = 0 := by
    rw [h1.2, show c + (pool.length - c) = pool.length by omega]
    exact Nat.mod_self _
  have h2 := iterateRR_no_wrap pool c 0 hpos (by omega)
  have hseg1 : (iterateRoundRobin pool c (pool.length - c)).1 = (pool.drop c).map some := by
    rw [h1.1]
    congr 1
    rw [← List.length_drop c pool]
    exact List.take_length _
  have hseg2 : (iterateRoundRobin pool 0 c).1 = (pool.take c).map some := by
    rw [h2.1, List.drop_zero]
  have hcur2 : (iterateRoundRobin pool 0 c).2 = c := by
    rw [h2.2, Nat.zero_add]
    exact Nat.mod_eq_of_lt hc
  constructor
  · rw [hlen, hadd1, hcur0, hseg1, hseg2]
    rw [List.rotate_eq_drop_append_take (Nat.le_of_lt hc), List.map_append]
  · rw [hlen, hadd2, hcur0, hcur2]

/-- C7: on a non-empty pool of N entries, N consecutive round-robin
selections return each entry exactly once (they are a permutation of the
pool) with the shared cursor advancing modulo the pool size back to its
start; an unknown policy falls back to a random pick from the pool; an
empty pool yields none. -/
theorem C7_round_robin_cycle :
    (∀ (pool : List String) (c : Nat), pool ≠ [] → c < pool.length →
        (iterateRoundRobin pool c pool.length).1.Perm (pool.map some) ∧
        (iterateRoundRobin pool c pool.length).2 = c) ∧
    (∀ (pool : List String) (policy : String) (c r : Nat), pool ≠ [] →
        policy ≠ "round-robin" → policy ≠ "random" →
        get_proxy pool policy c r = (pool.get? (r % pool.length), c) ∧
        (get_proxy pool policy c r).1.isSome) ∧
    (∀ (policy : String) (c r : Nat), get_proxy [] policy c r = (none, c)) := by
  refine ⟨?_, ?_, ?_⟩
  · intro pool c hne hc
    obtain ⟨h1, h2⟩ := iterateRR_full pool c hc
    refine ⟨?_, h2⟩
    rw [h1]
    exact (pool.rotate_perm c).map some
  · intro pool policy c r hne hrr hrand
    have h0 : pool.isEmpty = false := by simp [List.isEmpty_iff, hne]
    have hpos : 0 < pool.length := List.length_pos.mpr hne
    have hlt : r % pool.length < pool.length := Nat.mod_lt _ hpos
    have hget : pool[r % pool.length]? = some (pool.get ⟨_, hlt⟩) :=
      List.getElem?_eq_getElem hlt
    constructor
    · simp [get_proxy, h0, hrand, hrr]
    · simp [get_proxy, h0, hrand, hrr, hget]
  · intro policy c r
    simp [get_proxy]

/-- C7 witness: a full cycle over a concrete 3-entry pool starting at
cursor 1, the fallback for an unknown policy, and the empty pool. -/
theorem C7_witness :
    (iterateRoundRobin ["p1", "p2", "p3"] 1 3).1.Perm (["p1", "p2", "p3"].map some) ∧
    get_proxy ["p1", "p2", "p3"] "weird" 7 4 = (some "p2", 7) ∧
    get_proxy [] "round-robin" 0 0 = (none, 0) := by
  refine ⟨?_, ?_, ?_⟩
  · exact (C7_round_robin_cycle.1 ["p1", "p2", "p3"] 1 (by decide) (by decide)).1
  · have h := (C7_round_robin_cycle.2.1 ["p1", "p2", "p3"] "weird" 7 4
      (by decide) (by decide) (by decide)).1
    rw [h]
    rfl
  · exact C7_round_robin_cycle.2.2 "round-robin" 0 0

/-- Overwriting an existing `"url"` key makes it look up to the new
value. -/
theorem lookup_map_overwrite (u : String) :
    ∀ rec : Record, (rec.lookup "url").isSome →
      ((rec.map (fun kv => if kv.1 = "url" then ("url", Value.str u) else kv)).lookup "url")
        = some (Value.str u)
  | [], h => by simp at h
  | (k, v) :: rest, h => by
      by_cases hk : k = "url"
      · subst hk
        simp [List.lookup_cons]
      · have h2 : (rest.lookup "url").isSome := by
          simpa [List.lookup_cons, beq_false_of_ne (Ne.symm hk)] using h
        simpa [List.lookup_cons, if_neg hk, beq_false_of_ne (Ne.symm hk)] using
          lookup_map_overwrite u rest h2

/-- Appending a `"url"` entry to a record without one makes it look up
to that entry. -/
theorem lookup_append_url (rec : Record) (u : String)
    (h : rec.lookup "url" = none) :
    (rec ++ [("url", Value.str u)]).lookup "url" = some (Value.str u) := by
  induction rec with
  | nil => simp [List.lookup_cons]
  | cons kv rest ih =>
      obtain ⟨k, v⟩ := kv
      by_cases hk : k = "url"
      · subst hk
        simp [List.lookup_cons] at h
      · have h2 : rest.lookup "url" = none := by
          simpa [List.lookup_cons, beq_false_of_ne (Ne.symm hk)] using h
        simpa [List.lookup_cons, beq_false_of_ne (Ne.symm hk)] using ih h2

/-- Overwriting the `"url"` key leaves every other key's lookup
unchanged. -/
theorem lookup_map_other (u k : String) (hk : k ≠ "url") :
    ∀ rec : Record,
      ((rec.map (fun kv => if kv.1 = "url" then ("url", Value.str u) else kv)).lookup k)
        = rec.lookup k
  | [] => by simp
  | (k2, v) :: rest => by
      by_cases h2 : k2 = "url"
      · subst h2
        simp [List.lookup_cons, beq_false_of_ne hk, lookup_map_other u k hk rest]
      · by_cases h3 : k2 = k
        · subst h3
          simp [List.lookup_cons, if_neg h2]
        · simp [List.lookup_cons, if_neg h2, beq_false_of_ne (Ne.symm h3),
            lookup_map_other u k hk rest]

/-- Appending a `"url"` entry leaves every other key's lookup
unchanged. -/
theorem lookup_append_other (rec : Record) (u k : String) (hk : k ≠ "url") :
    (rec ++ [("url", Value.str u)]).lookup k = rec.lookup k := by
  induction rec with
  | nil => simp [List.lookup_cons, beq_false_of_ne hk]
  | cons kv rest ih =>
      obtain ⟨k2, v⟩ := kv
      by_cases h3 : k2 = k
      · subst h3
        simp [List.lookup_cons]
      · simp [List.lookup_cons, beq_false_of_ne (Ne.symm h3), ih]

/-- Adding the originating URL never produces an empty record. -/
theorem withUrl_ne_nil (rec : Record) (u : String) : withUrl rec u ≠ [] := by
  unfold withUrl
  split
  · rename_i h
    cases rec with
    | nil => simp [List.lookup] at h
    | cons kv rest => simp
  · simp

/-- After `result["url"] = url`, the `"url"` key holds the originating
URL, whether or not the schema already produced such a field. -/
theorem withUrl_lookup_url (rec : Record) (u : String) :
    (withUrl rec u).lookup "url" = some (Value.str u) := by
  unfold withUrl
  split
  · rename_i h
    exact lookup_map_overwrite u rec h
  · rename_i h
    have hn : rec.lookup "url" = none := by
      cases hx : rec.lookup "url" with
      | none => rfl
      | some v => rw [hx] at h; simp at h
    exact lookup_append_url rec u hn

/-- `result["url"] = url` does not disturb any other field. -/
theorem withUrl_lookup_other (rec : Record) (u k : String) (hk : k ≠ "url") :
    (withUrl rec u).lookup k = rec.lookup k := by
  unfold withUrl
  split
  · exact lookup_map_other u k hk rec
  · exact lookup_append_other rec u k hk

/-- Every record in a `scrape_multiple` result comes from some URL of
the list whose scrape was non-empty, with that URL added. -/
theorem scrapeMultiple_sources (scrapeOne : String → Record) :
    ∀ (urls : List String) (r : Record), r ∈ scrapeMultiple scrapeOne urls →
      ∃ u, u ∈ urls ∧ scrapeOne u ≠ [] ∧ r = withUrl (scrapeOne u) u := by
  intro urls
  induction urls with
  | nil => intro r hr; simp [scrapeMultiple] at hr
  | cons v rest ih =>
      intro r hr
      by_cases hv : scrapeOne v = []
      · rw [scrapeMultiple] at hr
        simp only [hv, if_pos] at hr
        obtain ⟨u, hu, hne, heq⟩ := ih r hr
        exact ⟨u, List.mem_cons_of_mem _ hu, hne, heq⟩
      · rw [scrapeMultiple] at hr
        simp only [hv, if_neg, if_false] at hr
        rcases List.mem_cons.mp hr with h | h
        · exact ⟨v, List.mem_cons_self v rest, hv, h⟩
        · obtain ⟨u, hu, hne, heq⟩ := ih r h
          exact ⟨u, List.mem_cons_of_mem _ hu, hne, heq⟩

/-- C10: every record returned by `scrape_multiple` is a non-empty
record coming from a URL whose scrape produced one, its `"url"` key
holds that originating URL (silently overwriting any schema field named
`url`), all other fields are exactly as extracted, and a URL whose
scrape returned the empty record contributes no entry at all. -/
theorem C10_url_field :
    (∀ (scrapeOne : String → Record) (urls : List String) (r : Record),
        r ∈ scrapeMultiple scrapeOne urls →
        ∃ u, u ∈ urls ∧ scrapeOne u ≠ [] ∧ r = withUrl (scrapeOne u) u) ∧
    (∀ (rec : Record) (u : String),
        (withUrl rec u).lookup "url" = some (Value.str u)) ∧
    (∀ (rec : Record) (u k : String), k ≠ "url" →
        (withUrl rec u).lookup k = rec.lookup k) ∧
    (∀ (scrapeOne : String → Record) (urls : List String) (r : Record),
        r ∈ scrapeMultiple scrapeOne urls → r ≠ []) := by
  refine ⟨?_, ?_, ?_, ?_⟩
  · intro scrapeOne urls r hr
    exact scrapeMultiple_sources scrapeOne urls r hr
  · intro rec u
    exact withUrl_lookup_url rec u
  · intro rec u k hk
    exact withUrl_lookup_other rec u k hk
  · intro scrapeOne urls r hr
    obtain ⟨u, _, _, heq⟩ := scrapeMultiple_sources scrapeOne urls r hr
    rw [heq]
    exact withUrl_ne_nil (scrapeOne u) u

/-- C10 witness: the provenance, url-overwrite and frame parts applied
to the concrete 3-URL scenario and to a record that already has a
`url` field. -/
theorem C10_witness :
    (∃ u, u ∈ threeUrls ∧ c6Engine u ≠ [] ∧
        withUrl (c6Engine "http://one") "http://one" = withUrl (c6Engine u) u) ∧
    (withUrl [("url", Value.str "old"), ("t", Value.str "x")] "http://n").lookup "url"
      = some (Value.str "http://n") ∧
    (withUrl [("url", Value.str "old"), ("t", Value.str "x")] "http://n").lookup "t"
      = [("url", Value.str "old"), ("t", Value.str "x")].lookup "t" :=
  ⟨C10_url_field.1 c6Engine threeUrls (withUrl (c6Engine "http://one") "http://one")
      (by decide),
   C10_url_field.2.1 [("url", Value.str "old"), ("t", Value.str "x")] "http://n",
   C10_url_field.2.2.1 [("url", Value.str "old"), ("t", Value.str "x")] "http://n" "t"
      (by decide)⟩

/-- Adding keys disjoint from the accumulated fieldnames appends them in
order. -/
theorem addNewKeys_of_disjoint :
    ∀ (ks acc : List String), ks.Nodup → (∀ k ∈ ks, k ∉ acc) →
      addNewKeys acc ks = acc ++ ks
  | [], acc, _, _ => by simp [addNewKeys]
  | k :: rest, acc, hnd, hdis => by
      have hk : k ∉ acc := hdis k (List.mem_cons_self k rest)
      rw [addNewKeys, if_neg hk]
      have hnd2 : rest.Nodup := (List.nodup_cons.mp hnd).2
      have hknot : k ∉ rest := (List.nodup_cons.mp hnd).1
      have hdis2 : ∀ x ∈ rest, x ∉ acc ++ [k] := by
        intro x hx
        simp only [List.mem_append, List.mem_singleton]
        rintro (h | h)
        · exact hdis x (List.mem_cons_of_mem _ hx) h
        · exact hknot (h ▸ hx)
      rw [addNewKeys_of_disjoint rest (acc ++ [k]) hnd2 hdis2]
      simp

/-- The exporter's header (first record's keys, then unseen keys of the
later records) equals the first-seen union over all records, provided
the first record's keys are distinct (as Python dict keys are). -/
theorem csvFieldnames_eq_spec (first : Record) (rest : List Record)
    (h : (recordKeys first).Nodup) :
    csvFieldnames (first :: rest) = specFirstSeenUnion (first :: rest) := by
  have hinit : addNewKeys [] (recordKeys first) = recordKeys first := by
    simpa using addNewKeys_of_disjoint (recordKeys first) [] h (by simp)
  rw [csvFieldnames, specFirstSeenUnion, List.foldl_cons, hinit]

/-- Two concrete records with different key sets, `b` holding a
non-scalar value. -/
def recA : Record := [("a", Value.str "1"), ("b", Value.vlist [Value.str "x"])]

/-- A second concrete record whose only key is new. -/
def recC : Record := [("c", Value.str "3")]

/-- C8: the CSV header is the union of all record keys in first-seen
order (as the specification words it); a key a record lacks renders as
the empty column; a non-scalar (list) value is serialized as its Python
string representation; and one row is written per record. -/
theorem C8_csv_export :
    (∀ (first : Record) (rest : List Record), (recordKeys first).Nodup →
        (csvExport (first :: rest)).1 = specFirstSeenUnion (first :: rest)) ∧
    (∀ (fns : List String) (item : Record) (i : Nat) (k : String),
        fns.get? i = some k → item.lookup k = none →
        (csvRow fns item).get? i = some "") ∧
    (∀ (fns : List String) (item : Record) (i : Nat) (k : String) (xs : List Value),
        fns.get? i = some k → item.lookup k = some (Value.vlist xs) →
        (csvRow fns item).get? i = some (pyRepr (Value.vlist xs))) ∧
    (∀ data : List Record, (csvExport data).2 = data.map (csvRow (csvFieldnames data))) := by
  refine ⟨?_, ?_, ?_, fun data => rfl⟩
  · intro first rest h
    exact csvFieldnames_eq_spec first rest h
  · intro fns item i k hf hm
    rw [csvRow, List.get?_map, hf]
    simp [hm]
  · intro fns item i k xs hf hm
    rw [csvRow, List.get?_map, hf]
    simp [hm, csvCell]

/-- C8 witness: the header, missing-column and serialization parts
applied to two concrete records with heterogeneous keys. -/
theorem C8_witness :
    (csvExport [recA, recC]).1 = specFirstSeenUnion [recA, recC] ∧
    (csvRow ["a", "b", "c"] recA).get? 2 = some "" ∧
    (csvRow ["a", "b", "c"] recA).get? 1 = some (pyRepr (Value.vlist [Value.str "x"])) :=
  ⟨C8_csv_export.1 recA [recC] (by decide),
   C8_csv_export.2.1 ["a", "b", "c"] recA 2 "c" rfl rfl,
   C8_csv_export.2.2.1 ["a", "b", "c"] recA 1 "b" [Value.str "x"] rfl rfl⟩

/-- C9 counterexample: constructing a `Scraper` with the default engine
argument `requests` around a configuration built with engine
`selenium` reassigns the configuration's `engine` field after its
construction, so the configuration is not immutable. -/
theorem C9_counterexample :
    scraperInit "requests" seleniumConfig ≠ seleniumConfig ∧
    (scraperInit "requests" seleniumConfig).engine = "requests" ∧
    seleniumConfig.engine = "selenium" := by
  refine ⟨?_, rfl, rfl⟩
  intro h
  have h2 := congrArg ScraperConfig.engine h
  simp [scraperInit, seleniumConfig] at h2

/-- C9 (amended): `Scraper.__init__` is the only mutation of a
constructed configuration, and it only ever reassigns the `engine`
field (to its own engine argument, when that argument is non-empty and
different); every other field survives unchanged, and a matching engine
argument leaves the configuration untouched. -/
theorem C9_init_mutates_only_engine (engineArg : String) (cfg : ScraperConfig) :
    ((scraperInit engineArg cfg).engine = engineArg ∨
      (scraperInit engineArg cfg).engine = cfg.engine) ∧
    (engineArg = cfg.engine → scraperInit engineArg cfg = cfg) ∧
    (scraperInit engineArg cfg).browser = cfg.browser ∧
    (scraperInit engineArg cfg).headless = cfg.headless ∧
    (scraperInit engineArg cfg).user_agent = cfg.user_agent ∧
    (scraperInit engineArg cfg).user_agent_rotation = cfg.user_agent_rotation ∧
    (scraperInit engineArg cfg).user_agent_list_path = cfg.user_agent_list_path ∧
    (scraperInit engineArg cfg).use_proxies = cfg.use_proxies ∧
    (scraperInit engineArg cfg).proxy_rotation_policy = cfg.proxy_rotation_policy ∧
    (scraperInit engineArg cfg).proxy_list_path = cfg.proxy_list_path ∧
    (scraperInit engineArg cfg).respect_robots_txt = cfg.respect_robots_txt ∧
    (scraperInit engineArg cfg).request_delay_ms = cfg.request_delay_ms ∧
    (scraperInit engineArg cfg).max_requests_per_minute = cfg.max_requests_per_minute ∧
    (scraperInit engineArg cfg).max_retries = cfg.max_retries ∧
    (scraperInit engineArg cfg).timeout = cfg.timeout ∧
    (scraperInit engineArg cfg).verify_ssl = cfg.verify_ssl ∧
    (scraperInit engineArg cfg).cookies = cfg.cookies ∧
    (scraperInit engineArg cfg).headers = cfg.headers ∧
    (scraperInit engineArg cfg).solve_captchas = cfg.solve_captchas ∧
    (scraperInit engineArg cfg).captcha_service = cfg.captcha_service ∧
    (scraperInit engineArg cfg).captcha_api_key = cfg.captcha_api_key ∧
    (scraperInit engineArg cfg).log_level = cfg.log_level ∧
    (scraperInit engineArg cfg).data_dir = cfg.data_dir := by
  unfold scraperInit
  split
  · rename_i hcond
    refine ⟨Or.inl rfl, fun he => absurd he hcond.2, ?_⟩
    repeat constructor
  · refine ⟨Or.inr rfl, fun _ => rfl, ?_⟩
    repeat constructor

/-- C4: for a structured FieldSpec, zero matches yield an empty sequence
when `multiple` and null otherwise with no error; each matched node
yields the named attribute (null when absent) or its trimmed text;
processors run in declared order and are skipped once the value is null;
values collapse to the first element unless `multiple`; and the scenario
schema over the scenario document yields title `Hi` and links
`/a`, `/b`. -/
theorem C4_structured_field :
    (∀ (doc : Doc) (sel : String) (attrName : Option String) (ps : List Processor),
        sel ≠ "" → doc sel = [] →
        extractStructured doc ⟨some sel, attrName, true, ps⟩ =
          Except.ok (some (Value.vlist []))) ∧
    (∀ (doc : Doc) (sel : String) (attrName : Option String) (ps : List Processor),
        sel ≠ "" → doc sel = [] →
        extractStructured doc ⟨some sel, attrName, false, ps⟩ =
          Except.ok (some Value.null)) ∧
    (∀ (a : String) (e : Node), nodeRawValue (some a) e = e.getAttr a) ∧
    (∀ e : Node, nodeRawValue none e = some (getTextStrip e)) ∧
    (∀ ps : List Processor, applyProcessors ps none = Except.ok none) ∧
    (∀ (p : Processor) (ps : List Processor) (s : String) (v : Option String),
        p s = Except.ok v →
        applyProcessors (p :: ps) (some s) = applyProcessors ps v) ∧
    (∀ (doc : Doc) (sel : String) (attrName : Option String) (mult : Bool)
        (ps : List Processor) (e : Node) (es : List Node) (vals : List (Option String)),
        sel ≠ "" → doc sel = e :: es →
        extractElems ⟨some sel, attrName, mult, ps⟩ (e :: es) = Except.ok vals →
        extractStructured doc ⟨some sel, attrName, mult, ps⟩ =
          Except.ok (some (collapseValues mult vals))) ∧
    (∀ vals, collapseValues true vals = Value.vlist (vals.map optValue)) ∧
    (∀ (v : Option String) (vs : List (Option String)),
        collapseValues false (v :: vs) = optValue v) ∧
    extractData scnDoc scnSchema =
      Except.ok [("title", Value.str "Hi"),
                 ("links", Value.vlist [Value.str "/a", Value.str "/b"])] := by
  refine ⟨?_, ?_, fun a e => rfl, fun e => rfl, ?_, ?_, ?_, fun vals => rfl, fun v vs => rfl, ?_⟩
  · intro doc sel attrName ps hne hdoc
    rw [extractStructured]
    simp [hne, hdoc]
  · intro doc sel attrName ps hne hdoc
    rw [extractStructured]
    simp [hne, hdoc]
  · intro ps
    induction ps with
    | nil => rfl
    | cons p rest ih => simpa [applyProcessors] using ih
  · intro p ps s v hp
    simp [applyProcessors, hp]
  · intro doc sel attrName mult ps e es vals hne hdoc hvals
    rw [extractStructured]
    simp [hne, hdoc, hvals]
  · rfl

/-- C4 witness: the amended-free theorem instantiated on the scenario
document, on an empty selection, and on a concrete processor chain. -/
theorem C4_witness :
    extractStructured scnDoc ⟨some "div", none, true, []⟩ =
      Except.ok (some (Value.vlist [])) ∧
    applyProcessors [faultProc] none = Except.ok none ∧
    extractStructured scnDoc ⟨some "a", some "href", true, []⟩ =
      Except.ok (some (collapseValues true [some "/a", some "/b"])) :=
  ⟨C4_structured_field.1 scnDoc "div" none [] (by decide) rfl,
   C4_structured_field.2.2.2.2.1 [faultProc],
   C4_structured_field.2.2.2.2.2.2.1 scnDoc "a" (some "href") true []
     ⟨[], [("href", "/a")]⟩ [⟨[], [("href", "/b")]⟩] [some "/a", some "/b"]
     (by decide) rfl rfl⟩

/-- C5: when the robots.txt of the origin cannot be retrieved or any
error occurs while checking, `can_fetch` is true (fail-open); a
retrieved parser's verdict is returned as is, so a robots.txt
disallowing `/private` denies `/private` and allows `/public`. -/
theorem C5_robots_fail_open :
    (∀ (fetchRobots : String → Except Unit (Option RobotsRules)) (origin path : String),
        fetchRobots origin = Except.error () → canFetchUrl fetchRobots origin path = true) ∧
    (∀ (fetchRobots : String → Except Unit (Option RobotsRules)) (origin path : String),
        fetchRobots origin = Except.ok none → canFetchUrl fetchRobots origin path = true) ∧
    (∀ (fetchRobots : String → Except Unit (Option RobotsRules))
        (origin path : String) (rules : RobotsRules),
        fetchRobots origin = Except.ok (some rules) → path ≠ "" →
        canFetchUrl fetchRobots origin path = rules.allows path) ∧
    canFetchUrl privateRobots "https://x" "/private" = false ∧
    canFetchUrl privateRobots "https://x" "/public" = true ∧
    canFetchUrl unreachableRobots "https://x" "/private" = true ∧
    canFetchUrl faultyRobots "https://x" "/private" = true := by
  refine ⟨?_, ?_, ?_, ?_, ?_, rfl, rfl⟩
  · intro fetchRobots origin path h
    simp [canFetchUrl, h]
  · intro fetchRobots origin path h
    simp [canFetchUrl, h]
  · intro fetchRobots origin path rules h hp
    simp [canFetchUrl, h, hp]
  · decide
  · decide

/-- C5 witness: the fail-open branches applied to the concrete faulty
and unreachable retrievals, and the verdict branch applied to the
`/private` rules. -/
theorem C5_witness :
    canFetchUrl faultyRobots "https://y" "/anything" = true ∧
    canFetchUrl unreachableRobots "https://y" "/anything" = true ∧
    canFetchUrl privateRobots "https://y" "/private/p.html" = privateRules.allows "/private/p.html" :=
  ⟨C5_robots_fail_open.1 faultyRobots "https://y" "/anything" rfl,
   C5_robots_fail_open.2.1 unreachableRobots "https://y" "/anything" rfl,
   C5_robots_fail_open.2.2.1 privateRobots "https://y" "/private/p.html" privateRules rfl
     (by decide)⟩

/-- Every URL whose scrape yields a record contributes that record (with
its URL added) to the result list of `scrape_multiple`. -/
theorem scrapeMultiple_mem (scrapeOne : String → Record) (urls : List String) :
    ∀ u ∈ urls, scrapeOne u ≠ [] →
      withUrl (scrapeOne u) u ∈ scrapeMultiple scrapeOne urls := by
  induction urls with
  | nil => intro u hu; exact absurd hu (List.not_mem_nil u)
  | cons v rest ih =>
      intro u hu hne
      rcases List.mem_cons.mp hu with h | h
      · subst h
        simp [scrapeMultiple, hne]
      · by_cases hv : scrapeOne v = []
        · simpa [scrapeMultiple, hv] using ih u h hne
        · simp only [scrapeMultiple, hv, if_neg hv]
          exact List.mem_cons_of_mem _ (ih u h hne)

/-- Dropping a failing URL from the list does not change the records the
other URLs produce. -/
theorem scrapeMultiple_skip (scrapeOne : String → Record)
    (us1 : List String) (u2 : String) (us3 : List String)
    (h : scrapeOne u2 = []) :
    scrapeMultiple scrapeOne (us1 ++ u2 :: us3) = scrapeMultiple scrapeOne (us1 ++ us3) := by
  induction us1 with
  | nil => simp [scrapeMultiple, h]
  | cons v rest ih =>
      by_cases hv : scrapeOne v = [] <;>
        simp [scrapeMultiple, hv, ih]

/-- C6: a single URL's failure (robots denial, fetch failure after its
retries, or extraction error — all of which produce the empty record)
does not stop processing of the remaining URLs: every URL that produces
a record is still represented, a failing URL is merely skipped, and the
3-URL scenario with URL 2 always failing yields records for URLs 1
and 3. -/
theorem C6_per_url_isolation :
    (∀ (scrapeOne : String → Record) (urls : List String) (u : String),
        u ∈ urls → scrapeOne u ≠ [] →
        withUrl (scrapeOne u) u ∈ scrapeMultiple scrapeOne urls) ∧
    (∀ (scrapeOne : String → Record) (us1 : List String) (u2 : String) (us3 : List String),
        scrapeOne u2 = [] →
        scrapeMultiple scrapeOne (us1 ++ u2 :: us3) = scrapeMultiple scrapeOne (us1 ++ us3)) ∧
    (∀ (robotsAllow : String → Bool) (engineResult : String → Record) (u : String),
        robotsAllow u = false → scraperScrape true robotsAllow engineResult u = []) ∧
    (∀ schema : Schema, engineScrape (Except.error ()) schema = []) ∧
    scrapeMultiple c6Engine threeUrls =
      [[("title", Value.str "http://one"), ("url", Value.str "http://one")],
       [("title", Value.str "http://three"), ("url", Value.str "http://three")]] := by
  refine ⟨?_, ?_, ?_, fun schema => rfl, ?_⟩
  · intro scrapeOne urls u hu hne
    exact scrapeMultiple_mem scrapeOne urls u hu hne
  · intro scrapeOne us1 u2 us3 h
    exact scrapeMultiple_skip scrapeOne us1 u2 us3 h
  · intro robotsAllow engineResult u h
    simp [scraperScrape, h]
  · decide

/-- C6 witness: the membership and skip parts applied to the concrete
3-URL scenario, and the robots-denial part at a concrete URL. -/
theorem C6_witness :
    withUrl (c6Engine "http://one") "http://one" ∈ scrapeMultiple c6Engine threeUrls ∧
    scrapeMultiple c6Engine (["http://one"] ++ "http://two" :: ["http://three"]) =
      scrapeMultiple c6Engine (["http://one"] ++ ["http://three"]) ∧
    scraperScrape true (fun _ => false) c6Engine "http://one" = [] :=
  ⟨C6_per_url_isolation.1 c6Engine threeUrls "http://one" (by decide) (by decide),
   C6_per_url_isolation.2.1 c6Engine ["http://one"] "http://two" ["http://three"] rfl,
   C6_per_url_isolation.2.2.1 (fun _ => false) c6Engine "http://one" rfl⟩

/-- C9 witness: the amended theorem applied to the counterexample's
concrete configuration. -/
theorem C9_witness :
    scraperInit "selenium" seleniumConfig = seleniumConfig ∧
    (scraperInit "requests" seleniumConfig).max_retries = seleniumConfig.max_retries :=
  ⟨(C9_init_mutates_only_engine "selenium" seleniumConfig).2.1 rfl,
   (C9_init_mutates_only_engine "requests" seleniumConfig).2.2.2.2.2.2.2.2.2.2.2.2.2.1⟩

end WST
